import Mathlib

/-!
Shallow embedding of the `cond_sync` crate (emabee/rust-cond_sync).

The crate wraps `Arc<(Mutex<T>, Condvar)>` in a struct `CondSync<T>` with the
operations `new`, `wait_until`, `wait_until_or_timeout`, `wait_timeout`,
`modify_and_notify` and `clone_inner`.  The repository has two versions of the
library source: `src/src/lib.rs` (error type `PoisonedError`) and `src/lib.rs`
(error type `CondSyncError::Poison`); apart from the error type their bodies
are identical.  We embed both: namespace `CondSync` models `src/src/lib.rs`
and namespace `RootLib` models `src/lib.rs`.

Modelling conventions:
* The protected cell (`Mutex<T>` plus its poison flag) is a `Cell α`:
  a value together with the mutex's `poisoned` flag.  `lock()` fails exactly
  when the flag is set, mirroring `std::sync::Mutex`.
* A blocking `Condvar::wait` is resolved by the environment: each wake is a
  `Cell α` describing the cell as re-acquired (other threads may have changed
  the value, and the mutex may have become poisoned while we were parked).
  A run of `wait_until` consumes a list of such wakes; an exhausted list
  means the thread is still parked (the Rust call would block forever), which
  the embedding reports as `none`.
* A `Condvar::wait_timeout` wake additionally carries the wake time and the
  `WaitTimeoutResult::timed_out()` flag (`TimedWake`).  Times are `Nat`
  instants; `Duration` is a `Nat`; `Instant - Instant` in Rust saturates to
  zero, which is exactly `Nat` truncated subtraction.
* The successful return of a waiting call is instrumented with the value held
  by the re-acquired mutex guard at the moment of return, so that theorems can
  speak about "the protected value at the moment of return".
* `modify_and_notify` is instrumented with the list of `Step`s it performs, in
  source order.  Note the Rust guard `mtx_guard` is dropped at the end of the
  function body, i.e. the mutex is released only after `notify_one` /
  `notify_all` has been called; the trace records this drop as `Step.release`.
-/

/-- Reason for a successful return of a waiting call (`pub enum Reason`,
identical in both source files). -/
inductive Reason where
  | Timeout
  | Condition
  | Notification
deriving DecidableEq

/-- Selector for how many waiters to wake (`pub enum Other`, identical in both
source files). -/
inductive Other where
  | One
  | All
deriving DecidableEq

/-- The error type of `src/src/lib.rs`: `pub struct PoisonedError;`, a unit
struct produced from any `std::sync::PoisonError` via `From`. -/
structure PoisonedError where
deriving DecidableEq

/-- The protected cell: the value behind the mutex together with the mutex's
poison flag. -/
structure Cell (α : Type) where
  value : α
  poisoned : Bool
deriving DecidableEq

/-- Environment description of one `Condvar::wait_timeout` wake: the cell as
re-acquired, the wake instant, and the `timed_out()` flag of the returned
`WaitTimeoutResult`. -/
structure TimedWake (α : Type) where
  value : α
  poisoned : Bool
  timedOut : Bool
  time : Nat
deriving DecidableEq

/-- Observable steps of `modify_and_notify`, in source order.  `release` is
the implicit drop of the mutex guard at the end of the function body. -/
inductive Step (α : Type) where
  | acquire
  | applyMutator (oldV newV : α)
  | notifyOne
  | notifyAll
  | release
deriving DecidableEq

/-- Outcome of a run of `wait_until_or_timeout`, instrumented with the time of
return and, for `condition`, the guard's value at return.  `blocked` means the
wake list was exhausted while parked (the Rust call would still be blocking);
it records the duration that was passed to the pending `Condvar::wait_timeout`
request, which the source computes as `end - now`. -/
inductive TimedOutcome (ε : Type) (α : Type) where
  | blocked (pendingReq : Nat)
  | failed (e : ε) (t : Nat)
  | timeout (t : Nat)
  | condition (v : α) (t : Nat)
deriving DecidableEq

/-- Time at which a `wait_until_or_timeout` run returned, if it returned. -/
def TimedOutcome.endedAt : TimedOutcome ε α → Option Nat
  | .blocked _ => none
  | .failed _ t => some t
  | .timeout t => some t
  | .condition _ t => some t

namespace CondSync

/-- Embedding of `CondSync::new` (src/src/lib.rs): a fresh, unpoisoned cell
holding `value`. -/
def new (value : α) : Cell α := ⟨value, false⟩

/-- The `while !condition(&*mtx_guard) { mtx_guard = self.0.cvar.wait(mtx_guard)?; }`
loop of `wait_until` (src/src/lib.rs lines 95-97).  `v` is the value currently
seen through the guard; each element of `wakes` is the cell as re-acquired
after one `Condvar::wait`.  Returns `none` when the wake list is exhausted
while still parked. -/
def waitLoop (pred : α → Bool) : α → List (Cell α) →
    Option (Except PoisonedError (Reason × α))
  | v, wakes =>
    if pred v then some (.ok (.Condition, v))
    else
      match wakes with
      | [] => none
      | w :: rest =>
        if w.poisoned then some (.error PoisonedError.mk)
        else waitLoop pred w.value rest

/-- Embedding of `CondSync::wait_until` (src/src/lib.rs lines 90-99):
`lock()?`, then the wait loop, then `Ok(Reason::Condition)`.  The successful
result is paired with the guard's value at the moment of return. -/
def wait_until (pred : α → Bool) (st : Cell α) (wakes : List (Cell α)) :
    Option (Except PoisonedError (Reason × α)) :=
  if st.poisoned then some (.error PoisonedError.mk)
  else waitLoop pred st.value wakes

/-- The loop of `wait_until_or_timeout` (src/src/lib.rs lines 124-135).
`endTime` is the absolute deadline `end`; `now` is the current instant.  Each
iteration: re-test the predicate; if false, issue
`cvar.wait_timeout(mtx_guard, end - now)` — answered by the next `TimedWake` —
then check `Err` (poison) first, then `timed_out()`, else continue with the
re-acquired value at the wake time. -/
def wutLoop (pred : α → Bool) (endTime : Nat) :
    α → Nat → List (TimedWake α) → TimedOutcome PoisonedError α
  | v, now, wakes =>
    if pred v then .condition v now
    else
      match wakes with
      | [] => .blocked (endTime - now)
      | w :: rest =>
        if w.poisoned then .failed PoisonedError.mk w.time
        else if w.timedOut then .timeout w.time
        else wutLoop pred endTime w.value w.time rest

/-- Embedding of `CondSync::wait_until_or_timeout` (src/src/lib.rs lines
114-137): `lock()?`, then `let end = Instant::now() + duration` computed once
(`t0` is that single `Instant::now()` sample), then the bounded wait loop. -/
def wait_until_or_timeout (pred : α → Bool) (duration : Nat) (st : Cell α)
    (t0 : Nat) (wakes : List (TimedWake α)) : TimedOutcome PoisonedError α :=
  if st.poisoned then .failed PoisonedError.mk t0
  else wutLoop pred (t0 + duration) st.value t0 wakes

/-- Embedding of `CondSync::wait_timeout` (src/src/lib.rs lines 151-166):
`lock()?`, then exactly one `cvar.wait_timeout` — answered by the single
`TimedWake` `w` — mapped to `Timeout` or `Notification` by `timed_out()`.
No predicate is evaluated and there is no loop.  The result is paired with
the guard's value at return. -/
def wait_timeout (st : Cell α) (w : TimedWake α) :
    Except PoisonedError (Reason × α) :=
  if st.poisoned then .error PoisonedError.mk
  else if w.poisoned then .error PoisonedError.mk
  else if w.timedOut then .ok (.Timeout, w.value)
  else .ok (.Notification, w.value)

/-- Embedding of `CondSync::modify_and_notify` (src/src/lib.rs lines 176-188):
`lock()?`, `modify(&mut *mtx_guard)`, `notify_one`/`notify_all` according to
`other`, `Ok(())`; the guard is dropped (the mutex released) at the end of the
function body, after the notify call.  Returns the updated cell and the trace
of steps in source order. -/
def modify_and_notify (modify : α → α) (other : Other) (st : Cell α) :
    Except PoisonedError (Cell α × List (Step α)) :=
  if st.poisoned then .error PoisonedError.mk
  else
    let v2 := modify st.value
    .ok ({ st with value := v2 },
      [Step.acquire, Step.applyMutator st.value v2,
        (match other with
          | Other.One => Step.notifyOne
          | Other.All => Step.notifyAll),
        Step.release])

/-- Embedding of `CondSync::clone_inner` (src/src/lib.rs lines 202-209):
`self.0.mtx.lock().unwrap_or_else(PoisonError::into_inner).clone()` — returns
a copy of the protected value, recovering the last-known content even when the
mutex is poisoned; it never fails. -/
def clone_inner (st : Cell α) : α := st.value

end CondSync

namespace RootLib

/-- The error type of `src/lib.rs`: `pub enum CondSyncError { Poison }`,
produced from any `std::sync::PoisonError` via `From`. -/
inductive CondSyncError where
  | Poison
deriving DecidableEq

/-- Embedding of `CondSync::new` (src/lib.rs): a fresh, unpoisoned cell. -/
def new (value : α) : Cell α := ⟨value, false⟩

/-- The wait loop of `wait_until` in src/lib.rs (lines 98-100); identical to
the loop in src/src/lib.rs except for the error type. -/
def waitLoop (pred : α → Bool) : α → List (Cell α) →
    Option (Except CondSyncError (Reason × α))
  | v, wakes =>
    if pred v then some (.ok (.Condition, v))
    else
      match wakes with
      | [] => none
      | w :: rest =>
        if w.poisoned then some (.error CondSyncError.Poison)
        else waitLoop pred w.value rest

/-- Embedding of `CondSync::wait_until` (src/lib.rs lines 93-102). -/
def wait_until (pred : α → Bool) (st : Cell α) (wakes : List (Cell α)) :
    Option (Except CondSyncError (Reason × α)) :=
  if st.poisoned then some (.error CondSyncError.Poison)
  else waitLoop pred st.value wakes

/-- The loop of `wait_until_or_timeout` in src/lib.rs (lines 129-140);
identical to the loop in src/src/lib.rs except that the `Err(_)` arm returns
`CondSyncError::Poison`. -/
def wutLoop (pred : α → Bool) (endTime : Nat) :
    α → Nat → List (TimedWake α) → TimedOutcome CondSyncError α
  | v, now, wakes =>
    if pred v then .condition v now
    else
      match wakes with
      | [] => .blocked (endTime - now)
      | w :: rest =>
        if w.poisoned then .failed CondSyncError.Poison w.time
        else if w.timedOut then .timeout w.time
        else wutLoop pred endTime w.value w.time rest

/-- Embedding of `CondSync::wait_until_or_timeout` (src/lib.rs lines 119-142). -/
def wait_until_or_timeout (pred : α → Bool) (duration : Nat) (st : Cell α)
    (t0 : Nat) (wakes : List (TimedWake α)) : TimedOutcome CondSyncError α :=
  if st.poisoned then .failed CondSyncError.Poison t0
  else wutLoop pred (t0 + duration) st.value t0 wakes

/-- Embedding of `CondSync::wait_timeout` (src/lib.rs lines 158-173). -/
def wait_timeout (st : Cell α) (w : TimedWake α) :
    Except CondSyncError (Reason × α) :=
  if st.poisoned then .error CondSyncError.Poison
  else if w.poisoned then .error CondSyncError.Poison
  else if w.timedOut then .ok (.Timeout, w.value)
  else .ok (.Notification, w.value)

/-- Embedding of `CondSync::modify_and_notify` (src/lib.rs lines 183-194);
same body as in src/src/lib.rs, with the guard dropped after the notify. -/
def modify_and_notify (modify : α → α) (other : Other) (st : Cell α) :
    Except CondSyncError (Cell α × List (Step α)) :=
  if st.poisoned then .error CondSyncError.Poison
  else
    let v2 := modify st.value
    .ok ({ st with value := v2 },
      [Step.acquire, Step.applyMutator st.value v2,
        (match other with
          | Other.One => Step.notifyOne
          | Other.All => Step.notifyAll),
        Step.release])

/-- Embedding of `CondSync::clone_inner` (src/lib.rs lines 209-215). -/
def clone_inner (st : Cell α) : α := st.value

end RootLib

/-- The condvar contract applied to the requests the `wait_until_or_timeout`
loop issues: starting at instant `now`, each wake answers a
`cvar.wait_timeout(guard, endTime - now)` request, so it occurs no earlier
than `now` and no later than `now + (endTime - now)` (the request is the
remaining time to the absolute deadline, saturating at zero). -/
def condvarTimely (endTime : Nat) : Nat → List (TimedWake α) → Bool
  | _, [] => true
  | now, w :: rest =>
    decide (now ≤ w.time) && decide (w.time ≤ now + (endTime - now)) &&
      condvarTimely endTime w.time rest

/-- Whether a step is a notification. -/
def stepNotifies : Step α → Bool
  | .notifyOne => true
  | .notifyAll => true
  | _ => false

/-- The ordering asserted by the specification for `modify_and_notify`:
no notification step occurs before the mutex is released. -/
def notifyOnlyAfterRelease : List (Step α) → Bool
  | [] => true
  | Step.release :: _ => true
  | s :: rest => !stepNotifies s && notifyOnlyAfterRelease rest

/-- Serialized execution of a list of mutations, each one applied with
`modify_and_notify` (target `One`): because every `modify_and_notify` holds
the mutex for its whole critical section, any interleaving of single-mutation
threads is equal to running their mutations in some serial order. -/
def runMutations : List (α → α) → Cell α → Except PoisonedError (Cell α)
  | [], st => .ok st
  | f :: rest, st =>
    match CondSync.modify_and_notify f Other.One st with
    | .error e => .error e
    | .ok (st2, _) => runMutations rest st2

/-- Map a result of the src/lib.rs version onto the error type of the
src/src/lib.rs version (`CondSyncError` has the single variant `Poison`,
`PoisonedError` is a unit struct). -/
def exMap : Except RootLib.CondSyncError β → Except PoisonedError β
  | .error _ => .error PoisonedError.mk
  | .ok b => .ok b

/-- Map a `wait_until_or_timeout` outcome of the src/lib.rs version onto the
error type of the src/src/lib.rs version. -/
def outMap : TimedOutcome RootLib.CondSyncError α → TimedOutcome PoisonedError α
  | .blocked r => .blocked r
  | .failed _ t => .failed PoisonedError.mk t
  | .timeout t => .timeout t
  | .condition v t => .condition v t

/-! Unfolding equations for the recursive runs (all hold by `rfl`). -/

theorem waitLoop_nil {α : Type} (pred : α → Bool) (v : α) :
    CondSync.waitLoop pred v [] =
      if pred v then some (Except.ok (Reason.Condition, v)) else none := rfl

theorem waitLoop_cons {α : Type} (pred : α → Bool) (v : α) (w : Cell α)
    (rest : List (Cell α)) :
    CondSync.waitLoop pred v (w :: rest) =
      if pred v then some (Except.ok (Reason.Condition, v))
      else if w.poisoned then some (Except.error PoisonedError.mk)
      else CondSync.waitLoop pred w.value rest := rfl

theorem wutLoop_nil {α : Type} (pred : α → Bool) (endTime : Nat) (v : α)
    (now : Nat) :
    CondSync.wutLoop pred endTime v now [] =
      if pred v then TimedOutcome.condition v now
      else TimedOutcome.blocked (endTime - now) := rfl

theorem wutLoop_cons {α : Type} (pred : α → Bool) (endTime : Nat) (v : α)
    (now : Nat) (w : TimedWake α) (rest : List (TimedWake α)) :
    CondSync.wutLoop pred endTime v now (w :: rest) =
      if pred v then TimedOutcome.condition v now
      else if w.poisoned then TimedOutcome.failed PoisonedError.mk w.time
      else if w.timedOut then TimedOutcome.timeout w.time
      else CondSync.wutLoop pred endTime w.value w.time rest := rfl

theorem rootWaitLoop_nil {α : Type} (pred : α → Bool) (v : α) :
    RootLib.waitLoop pred v [] =
      if pred v then some (Except.ok (Reason.Condition, v)) else none := rfl

theorem rootWaitLoop_cons {α : Type} (pred : α → Bool) (v : α) (w : Cell α)
    (rest : List (Cell α)) :
    RootLib.waitLoop pred v (w :: rest) =
      if pred v then some (Except.ok (Reason.Condition, v))
      else if w.poisoned then some (Except.error RootLib.CondSyncError.Poison)
      else RootLib.waitLoop pred w.value rest := rfl

theorem rootWutLoop_nil {α : Type} (pred : α → Bool) (endTime : Nat) (v : α)
    (now : Nat) :
    RootLib.wutLoop pred endTime v now [] =
      if pred v then TimedOutcome.condition v now
      else TimedOutcome.blocked (endTime - now) := rfl

theorem rootWutLoop_cons {α : Type} (pred : α → Bool) (endTime : Nat) (v : α)
    (now : Nat) (w : TimedWake α) (rest : List (TimedWake α)) :
    RootLib.wutLoop pred endTime v now (w :: rest) =
      if pred v then TimedOutcome.condition v now
      else if w.poisoned then TimedOutcome.failed RootLib.CondSyncError.Poison w.time
      else if w.timedOut then TimedOutcome.timeout w.time
      else RootLib.wutLoop pred endTime w.value w.time rest := rfl

/-! Invariants of the wait loops. -/

/-- A successful result of the `wait_until` loop is `Condition` together with
a guard value satisfying the predicate. -/
theorem waitLoop_ok_inv {α : Type} (pred : α → Bool) :
    ∀ (wakes : List (Cell α)) (v : α) (r : Reason) (u : α),
      CondSync.waitLoop pred v wakes = some (Except.ok (r, u)) →
      r = Reason.Condition ∧ pred u = true := by
  intro wakes
  induction wakes with
  | nil =>
    intro v r u h
    rw [waitLoop_nil] at h
    by_cases hp : pred v
    · simp only [hp, if_true, Option.some.injEq, Except.ok.injEq, Prod.mk.injEq] at h
      exact ⟨h.1.symm, h.2 ▸ hp⟩
    · simp [hp] at h
  | cons w rest ih =>
    intro v r u h
    rw [waitLoop_cons] at h
    by_cases hp : pred v
    · simp only [hp, if_true, Option.some.injEq, Except.ok.injEq, Prod.mk.injEq] at h
      exact ⟨h.1.symm, h.2 ▸ hp⟩
    · by_cases hw : w.poisoned
      · simp [hp, hw] at h
      · simp only [hp, hw, if_false, Bool.false_eq_true] at h
        exact ih w.value r u h

/-- If no wake changes the protected value, the value seen at a successful
return of the `wait_until` loop is the initial one. -/
theorem waitLoop_const_value {α : Type} (pred : α → Bool) :
    ∀ (wakes : List (Cell α)) (v : α),
      (∀ c ∈ wakes, c.value = v) →
      ∀ (r : Reason) (u : α),
        CondSync.waitLoop pred v wakes = some (Except.ok (r, u)) → u = v := by
  intro wakes
  induction wakes with
  | nil =>
    intro v _ r u h
    rw [waitLoop_nil] at h
    by_cases hp : pred v
    · simp only [hp, if_true, Option.some.injEq, Except.ok.injEq, Prod.mk.injEq] at h
      exact h.2.symm
    · simp [hp] at h
  | cons w rest ih =>
    intro v hv r u h
    rw [waitLoop_cons] at h
    by_cases hp : pred v
    · simp only [hp, if_true, Option.some.injEq, Except.ok.injEq, Prod.mk.injEq] at h
      exact h.2.symm
    · by_cases hw : w.poisoned
      · simp [hp, hw] at h
      · simp only [hp, hw, if_false, Bool.false_eq_true] at h
        have hwv : w.value = v := hv w (by simp)
        have hrest : ∀ c ∈ rest, c.value = w.value := by
          intro c hc
          rw [hwv]
          exact hv c (by simp [hc])
        have := ih w.value hrest r u h
        rw [this, hwv]

/-- If no wake changes the protected value, the value seen at a `condition`
return of the `wait_until_or_timeout` loop is the initial one. -/
theorem wutLoop_const_value {α : Type} (pred : α → Bool) (endTime : Nat) :
    ∀ (wakes : List (TimedWake α)) (v : α) (now : Nat),
      (∀ c ∈ wakes, c.value = v) →
      ∀ (u : α) (t : Nat),
        CondSync.wutLoop pred endTime v now wakes = TimedOutcome.condition u t →
        u = v := by
  intro wakes
  induction wakes with
  | nil =>
    intro v now _ u t h
    rw [wutLoop_nil] at h
    by_cases hp : pred v
    · simp only [hp, if_true, TimedOutcome.condition.injEq] at h
      exact h.1.symm
    · simp [hp] at h
  | cons w rest ih =>
    intro v now hv u t h
    rw [wutLoop_cons] at h
    by_cases hp : pred v
    · simp only [hp, if_true, TimedOutcome.condition.injEq] at h
      exact h.1.symm
    · by_cases hw : w.poisoned
      · simp [hp, hw] at h
      · by_cases hto : w.timedOut
        · simp [hp, hw, hto] at h
        · simp only [hp, hw, hto, if_false, Bool.false_eq_true] at h
          have hwv : w.value = v := hv w (by simp)
          have hrest : ∀ c ∈ rest, c.value = w.value := by
            intro c hc
            rw [hwv]
            exact hv c (by simp [hc])
          have := ih w.value w.time hrest u t h
          rw [this, hwv]

/-- Timing bound for the `wait_until_or_timeout` loop: if each wake answers a
`wait_timeout(guard, endTime - now)` request within its bound
(`condvarTimely`) and the loop starts no later than the deadline, then the
loop returns no later than `endTime`. -/
theorem wutLoop_endedAt_le {α : Type} (pred : α → Bool) (endTime : Nat) :
    ∀ (wakes : List (TimedWake α)) (v : α) (now : Nat),
      condvarTimely endTime now wakes = true → now ≤ endTime →
      ∀ t, (CondSync.wutLoop pred endTime v now wakes).endedAt = some t →
        t ≤ endTime := by
  intro wakes
  induction wakes with
  | nil =>
    intro v now _ hle t ht
    rw [wutLoop_nil] at ht
    by_cases hp : pred v
    · simp only [hp, if_true, TimedOutcome.endedAt, Option.some.injEq] at ht
      omega
    · simp [hp, TimedOutcome.endedAt] at ht
  | cons w rest ih =>
    intro v now htimely hle t ht
    rw [wutLoop_cons] at ht
    simp only [condvarTimely, Bool.and_eq_true, decide_eq_true_eq] at htimely
    obtain ⟨⟨h1, h2⟩, h3⟩ := htimely
    have hwle : w.time ≤ endTime := by omega
    by_cases hp : pred v
    · simp only [hp, if_true, TimedOutcome.endedAt, Option.some.injEq] at ht
      omega
    · by_cases hpo : w.poisoned
      · simp only [hp, hpo, if_false, if_true, Bool.false_eq_true,
          TimedOutcome.endedAt, Option.some.injEq] at ht
        omega
      · by_cases hto : w.timedOut
        · simp only [hp, hpo, hto, if_false, if_true, Bool.false_eq_true,
            TimedOutcome.endedAt, Option.some.injEq] at ht
          omega
        · simp only [hp, hpo, hto, if_false, Bool.false_eq_true] at ht
          exact ih w.value w.time h3 hwle t ht

/-- Serial execution of `N` unit increments via `modify_and_notify` adds `N`
to the counter. -/
theorem runMutations_replicate (N : Nat) :
    ∀ k : Nat, runMutations (List.replicate N (fun v => v + 1)) ⟨k, false⟩ =
      Except.ok (⟨k + N, false⟩ : Cell Nat) := by
  induction N with
  | zero => intro k; rfl
  | succ n ih =>
    intro k
    rw [List.replicate_succ]
    show runMutations (List.replicate n (fun v => v + 1)) ⟨k + 1, false⟩ =
      Except.ok (⟨k + (n + 1), false⟩ : Cell Nat)
    rw [ih (k + 1)]
    congr 2
    omega

/-- The `wait_until` loop with predicate `v == N`, started at value `j` with
`N = j + n` and woken once at each of the intermediate counter values
`j+1, …, j+n`, returns `Condition` with the value `N`. -/
theorem waitLoop_counts (n : Nat) :
    ∀ (j N : Nat), N = j + n →
      CondSync.waitLoop (fun v => v == N) j
          ((List.range' (j + 1) n).map (fun i => (⟨i, false⟩ : Cell Nat))) =
        some (Except.ok (Reason.Condition, N)) := by
  induction n with
  | zero =>
    intro j N hN
    have hj : j = N := by omega
    subst hj
    simp [waitLoop_nil]
  | succ n ih =>
    intro j N hN
    have hfalse : ((j == N) : Bool) = false := by
      simp only [Nat.beq_eq_true_eq] at *
      simp only [beq_eq_false_iff_ne, ne_eq]
      omega
    rw [List.range'_succ, List.map_cons, waitLoop_cons]
    simp only [hfalse, if_false, Bool.false_eq_true]
    exact ih (j + 1) N (by omega)

/-- The `wait_until` loops of the two source versions agree up to the error
type mapping. -/
theorem waitLoop_equiv {α : Type} (pred : α → Bool) :
    ∀ (wakes : List (Cell α)) (v : α),
      (RootLib.waitLoop pred v wakes).map exMap = CondSync.waitLoop pred v wakes := by
  intro wakes
  induction wakes with
  | nil =>
    intro v
    rw [rootWaitLoop_nil, waitLoop_nil]
    by_cases hp : pred v <;> simp [hp, exMap]
  | cons w rest ih =>
    intro v
    rw [rootWaitLoop_cons, waitLoop_cons]
    by_cases hp : pred v
    · simp [hp, exMap]
    · by_cases hw : w.poisoned
      · simp [hp, hw, exMap]
      · simp only [hp, hw, if_false, Bool.false_eq_true]
        exact ih w.value

/-- The `wait_until_or_timeout` loops of the two source versions agree up to
the error type mapping. -/
theorem wutLoop_equiv {α : Type} (pred : α → Bool) (endTime : Nat) :
    ∀ (wakes : List (TimedWake α)) (v : α) (now : Nat),
      outMap (RootLib.wutLoop pred endTime v now wakes) =
        CondSync.wutLoop pred endTime v now wakes := by
  intro wakes
  induction wakes with
  | nil =>
    intro v now
    rw [rootWutLoop_nil, wutLoop_nil]
    by_cases hp : pred v <;> simp [hp, outMap]
  | cons w rest ih =>
    intro v now
    rw [rootWutLoop_cons, wutLoop_cons]
    by_cases hp : pred v
    · simp [hp, outMap]
    · by_cases hw : w.poisoned
      · simp [hp, hw, outMap]
      · by_cases hto : w.timedOut
        · simp [hp, hw, hto, outMap]
        · simp only [hp, hw, hto, if_false, Bool.false_eq_true]
          exact ih w.value w.time

/-! Claim theorems. -/

/-- C1: for every predicate and every state of the shared cell, a successful
return of `wait_until` yields `Reason.Condition` and the predicate holds on
the protected value at the moment of return; `wait_until` never returns
`Timeout` or `Notification`, because its loop re-tests the predicate after
every wake before returning. -/
theorem wait_until_returns_condition {α : Type} (pred : α → Bool) (st : Cell α)
    (wakes : List (Cell α)) (r : Reason) (v : α)
    (h : CondSync.wait_until pred st wakes = some (Except.ok (r, v))) :
    r = Reason.Condition ∧ pred v = true := by
  unfold CondSync.wait_until at h
  by_cases hp : st.poisoned
  · simp [hp] at h
  · simp only [hp, if_false, Bool.false_eq_true] at h
    exact waitLoop_ok_inv pred wakes st.value r v h

/-- Witness for C1 at a concrete run: waiting for the value 1 starting from 0
with a single wake at value 1. -/
theorem wait_until_returns_condition_witness :
    Reason.Condition = Reason.Condition ∧ ((1 : Nat) == 1) = true :=
  wait_until_returns_condition (fun v => v == 1) ⟨0, false⟩ [⟨1, false⟩]
    Reason.Condition 1 rfl

/-- C2: `wait_until_or_timeout` computes the absolute deadline exactly once at
entry as `t0 + duration` and runs its loop against that fixed deadline; when
every wake answers its `wait_timeout(guard, deadline - now)` request within
the requested remaining time (`condvarTimely`), the run returns no later than
`t0 + duration`, so the total blocking time across all iterations is bounded
by the requested duration. -/
theorem wait_until_or_timeout_deadline_bound {α : Type} (pred : α → Bool)
    (duration : Nat) (st : Cell α) (t0 : Nat) (wakes : List (TimedWake α)) :
    (CondSync.wait_until_or_timeout pred duration st t0 wakes =
      if st.poisoned then TimedOutcome.failed PoisonedError.mk t0
      else CondSync.wutLoop pred (t0 + duration) st.value t0 wakes) ∧
    (condvarTimely (t0 + duration) t0 wakes = true →
      ∀ t, (CondSync.wait_until_or_timeout pred duration st t0 wakes).endedAt =
          some t →
        t ≤ t0 + duration) := by
  constructor
  · rfl
  · intro htimely t ht
    unfold CondSync.wait_until_or_timeout at ht
    by_cases hp : st.poisoned
    · simp only [hp, if_true, TimedOutcome.endedAt, Option.some.injEq] at ht
      omega
    · simp only [hp, if_false, Bool.false_eq_true] at ht
      exact wutLoop_endedAt_le pred (t0 + duration) wakes st.value t0 htimely
        (Nat.le_add_right t0 duration) t ht

/-- Witness for C2 at a concrete run: deadline 5 + 10, two intermediate wakes
at instants 7 and 9, return (with the condition met) at instant 9 ≤ 15. -/
theorem wait_until_or_timeout_deadline_bound_witness :
    (CondSync.wait_until_or_timeout (fun v => v == 2) 10 (⟨0, false⟩ : Cell Nat) 5
        [⟨1, false, false, 7⟩, ⟨2, false, false, 9⟩] =
      if (⟨0, false⟩ : Cell Nat).poisoned then TimedOutcome.failed PoisonedError.mk 5
      else CondSync.wutLoop (fun v => v == 2) (5 + 10) (0 : Nat) 5
        [⟨1, false, false, 7⟩, ⟨2, false, false, 9⟩]) ∧
    (9 : Nat) ≤ 5 + 10 :=
  ⟨(wait_until_or_timeout_deadline_bound (fun v => v == 2) 10 ⟨0, false⟩ 5
      [⟨1, false, false, 7⟩, ⟨2, false, false, 9⟩]).1,
   (wait_until_or_timeout_deadline_bound (fun v => v == 2) 10 ⟨0, false⟩ 5
      [⟨1, false, false, 7⟩, ⟨2, false, false, 9⟩]).2 (by decide) 9 (by rfl)⟩

/-- C3: if the predicate is observed true before the deadline (including
already true at entry), `wait_until_or_timeout` returns `Condition`; if a wake
reports that the deadline elapsed, the call returns `Timeout` immediately,
without evaluating the predicate one final time after expiry (the conclusion
holds even under the explicit assumption that the predicate is true on the
value seen at the expired wake). -/
theorem wait_until_or_timeout_reason_policy {α : Type} (pred : α → Bool)
    (duration : Nat) (st : Cell α) (t0 : Nat) (wakes : List (TimedWake α))
    (endTime : Nat) (v : α) (now : Nat) (w : TimedWake α)
    (rest : List (TimedWake α)) :
    (pred st.value = true → st.poisoned = false →
      CondSync.wait_until_or_timeout pred duration st t0 wakes =
        TimedOutcome.condition st.value t0) ∧
    (pred v = false → w.poisoned = false → w.timedOut = true →
      pred w.value = true →
      CondSync.wutLoop pred endTime v now (w :: rest) =
        TimedOutcome.timeout w.time) ∧
    (pred v = false → w.poisoned = false → w.timedOut = false →
      pred w.value = true →
      CondSync.wutLoop pred endTime v now (w :: rest) =
        TimedOutcome.condition w.value w.time) := by
  refine ⟨?_, ?_, ?_⟩
  · intro hp hpo
    unfold CondSync.wait_until_or_timeout
    rw [hpo]
    cases wakes with
    | nil => simp [wutLoop_nil, hp]
    | cons a l => simp [wutLoop_cons, hp]
  · intro hp hpo hto _
    rw [wutLoop_cons]
    simp [hp, hpo, hto]
  · intro hp hpo hto hpw
    rw [wutLoop_cons]
    simp only [hp, hpo, hto, if_false, Bool.false_eq_true]
    cases rest with
    | nil => simp [wutLoop_nil, hpw]
    | cons a l => simp [wutLoop_cons, hpw]

/-- Witness for C3 at concrete runs: condition already true at entry; a timed
out wake whose value satisfies the predicate still yields `Timeout`; a
notified wake whose value satisfies the predicate yields `Condition`. -/
theorem wait_until_or_timeout_reason_policy_witness :
    CondSync.wait_until_or_timeout (fun v => v == 1) 10 (⟨1, false⟩ : Cell Nat) 0 [] =
      TimedOutcome.condition 1 0 ∧
    CondSync.wutLoop (fun v => v == 1) 10 (0 : Nat) 0 [⟨1, false, true, 8⟩] =
      TimedOutcome.timeout 8 ∧
    CondSync.wutLoop (fun v => v == 1) 10 (0 : Nat) 0 [⟨1, false, false, 8⟩] =
      TimedOutcome.condition 1 8 :=
  ⟨(wait_until_or_timeout_reason_policy (fun v => v == 1) 10 ⟨1, false⟩ 0 []
      10 0 0 ⟨1, false, true, 8⟩ []).1 rfl rfl,
   (wait_until_or_timeout_reason_policy (fun v => v == 1) 10 ⟨1, false⟩ 0 []
      10 0 0 ⟨1, false, true, 8⟩ []).2.1 rfl rfl rfl rfl,
   (wait_until_or_timeout_reason_policy (fun v => v == 1) 10 ⟨1, false⟩ 0 []
      10 0 0 ⟨1, false, false, 8⟩ []).2.2 rfl rfl rfl rfl⟩

/-- C4: `wait_timeout` evaluates no predicate and does not loop: it performs
exactly one bounded wait and never returns `Condition`; when the single wake's
`timed_out()` flag reflects whether the deadline `t0 + duration` had elapsed
at the wake instant, it returns `Timeout` exactly when the deadline elapsed
first and `Notification` for any wake (spurious or not) before the
deadline. -/
theorem wait_timeout_single_wait {α : Type} (st : Cell α) (w : TimedWake α)
    (duration t0 : Nat) :
    (∀ (r : Reason) (v : α),
      CondSync.wait_timeout st w = Except.ok (r, v) → r ≠ Reason.Condition) ∧
    (st.poisoned = false → w.poisoned = false →
      w.timedOut = decide (t0 + duration ≤ w.time) →
      CondSync.wait_timeout st w =
        Except.ok
          ((if t0 + duration ≤ w.time then Reason.Timeout else Reason.Notification),
            w.value)) := by
  constructor
  · intro r v h
    unfold CondSync.wait_timeout at h
    by_cases hp : st.poisoned
    · simp [hp] at h
    · by_cases hw : w.poisoned
      · simp [hp, hw] at h
      · by_cases hto : w.timedOut
        · simp only [hp, hw, hto, if_false, if_true, Bool.false_eq_true,
            Except.ok.injEq, Prod.mk.injEq] at h
          rw [← h.1]
          intro hc
          exact Reason.noConfusion hc
        · simp only [hp, hw, hto, if_false, Bool.false_eq_true,
            Except.ok.injEq, Prod.mk.injEq] at h
          rw [← h.1]
          intro hc
          exact Reason.noConfusion hc
  · intro hp hw hto
    unfold CondSync.wait_timeout
    rw [hp, hw, hto]
    by_cases hd : t0 + duration ≤ w.time <;> simp [hd]

/-- Witness for C4 at a concrete run: a wake at instant 4 against the deadline
0 + 10 is a `Notification`, never a `Condition`. -/
theorem wait_timeout_single_wait_witness :
    CondSync.wait_timeout (⟨0, false⟩ : Cell Nat) ⟨3, false, false, 4⟩ =
      Except.ok
        ((if 0 + 10 ≤ 4 then Reason.Timeout else Reason.Notification), 3) ∧
    Reason.Notification ≠ Reason.Condition :=
  ⟨(wait_timeout_single_wait (⟨0, false⟩ : Cell Nat) ⟨3, false, false, 4⟩ 10 0).2
      rfl rfl (by decide),
   (wait_timeout_single_wait (⟨0, false⟩ : Cell Nat) ⟨3, false, false, 4⟩ 10 0).1
      Reason.Notification 3 (by rfl)⟩

/-- C5 counterexample: at the concrete call
`modify_and_notify (|v| v + 1) One` on the unpoisoned cell holding `0`, the
recorded step trace is acquire, mutate, notify, release — the notification is
issued while exclusive access is still held, so the claimed order "release
access and only then notify" is false on the code. -/
theorem modify_and_notify_release_order_cex :
    CondSync.modify_and_notify (fun v => v + 1) Other.One (⟨0, false⟩ : Cell Nat) =
      Except.ok (⟨1, false⟩,
        [Step.acquire, Step.applyMutator 0 1, Step.notifyOne, Step.release]) ∧
    notifyOnlyAfterRelease
      [Step.acquire, Step.applyMutator (0 : Nat) 1, Step.notifyOne, Step.release] =
      false :=
  ⟨rfl, rfl⟩

/-- C5 (amended): for every mutator and target, `modify_and_notify` acquires
exclusive access, applies the mutator exactly once to the held value in
place, then issues the notification (notify_one for `One`, notify_all for
`All`) while still holding access, and releases access at scope exit after
the notification; the notification always happens after the mutation is
committed and is issued unconditionally of the new value. -/
theorem modify_and_notify_trace_order {α : Type} (modify : α → α)
    (other : Other) (st : Cell α) (h : st.poisoned = false) :
    CondSync.modify_and_notify modify other st =
      Except.ok ({ st with value := modify st.value },
        [Step.acquire, Step.applyMutator st.value (modify st.value),
          (match other with
            | Other.One => Step.notifyOne
            | Other.All => Step.notifyAll),
          Step.release]) := by
  unfold CondSync.modify_and_notify
  simp [h]

/-- Witness for the amended C5 at a concrete call with target `All`. -/
theorem modify_and_notify_trace_order_witness :
    CondSync.modify_and_notify (fun v => v + 1) Other.All (⟨2, false⟩ : Cell Nat) =
      Except.ok (⟨3, false⟩,
        [Step.acquire, Step.applyMutator 2 3, Step.notifyAll, Step.release]) :=
  modify_and_notify_trace_order (fun v => v + 1) Other.All ⟨2, false⟩ rfl

/-- C6: `Poisoned` is the single error kind (`PoisonedError` has exactly one
value), and every operation that acquires exclusive access — `wait_until`,
`wait_until_or_timeout`, `wait_timeout`, `modify_and_notify` — surfaces it to
its immediate caller when the region is poisoned, while `clone_inner`
(snapshot) never fails and returns the region's last-known value instead. -/
theorem poisoned_propagation {α : Type} (pred : α → Bool) (st : Cell α)
    (wakes : List (Cell α)) (duration t0 : Nat) (twakes : List (TimedWake α))
    (w : TimedWake α) (f : α → α) (other : Other) (h : st.poisoned = true) :
    CondSync.wait_until pred st wakes = some (Except.error PoisonedError.mk) ∧
    CondSync.wait_until_or_timeout pred duration st t0 twakes =
      TimedOutcome.failed PoisonedError.mk t0 ∧
    CondSync.wait_timeout st w = Except.error PoisonedError.mk ∧
    CondSync.modify_and_notify f other st = Except.error PoisonedError.mk ∧
    CondSync.clone_inner st = st.value ∧
    ∀ e : PoisonedError, e = PoisonedError.mk := by
  refine ⟨?_, ?_, ?_, ?_, rfl, fun e => rfl⟩
  · unfold CondSync.wait_until
    rw [h]
    rfl
  · unfold CondSync.wait_until_or_timeout
    rw [h]
    rfl
  · unfold CondSync.wait_timeout
    rw [h]
    rfl
  · unfold CondSync.modify_and_notify
    rw [h]
    rfl

/-- Witness for C6 at a concrete poisoned cell holding 5. -/
theorem poisoned_propagation_witness :
    CondSync.wait_until (fun v => v == 0) (⟨5, true⟩ : Cell Nat) [] =
      some (Except.error PoisonedError.mk) ∧
    CondSync.wait_until_or_timeout (fun v => v == 0) 10 (⟨5, true⟩ : Cell Nat) 0 [] =
      TimedOutcome.failed PoisonedError.mk 0 ∧
    CondSync.wait_timeout (⟨5, true⟩ : Cell Nat) ⟨5, false, true, 3⟩ =
      Except.error PoisonedError.mk ∧
    CondSync.modify_and_notify (fun v => v + 1) Other.One (⟨5, true⟩ : Cell Nat) =
      Except.error PoisonedError.mk ∧
    CondSync.clone_inner (⟨5, true⟩ : Cell Nat) = 5 ∧
    PoisonedError.mk = PoisonedError.mk := by
  have H := poisoned_propagation (fun v => v == 0) (⟨5, true⟩ : Cell Nat) []
    10 0 [] ⟨5, false, true, 3⟩ (fun v => v + 1) Other.One rfl
  exact ⟨H.1, H.2.1, H.2.2.1, H.2.2.2.1, H.2.2.2.2.1, H.2.2.2.2.2 PoisonedError.mk⟩

/-- C7: a value returned by snapshot (`clone_inner`) is a detached copy: it
equals the protected value at snapshot time, and a subsequent
`modify_and_notify` produces a new cell holding the mutated value while the
previously returned copy still equals the value as it was at snapshot
time. -/
theorem snapshot_detached {α : Type} (f : α → α) (other : Other)
    (st st2 : Cell α) (tr : List (Step α))
    (h : CondSync.modify_and_notify f other st = Except.ok (st2, tr)) :
    CondSync.clone_inner st = st.value ∧
    st2.value = f st.value ∧
    CondSync.clone_inner st2 = f st.value := by
  unfold CondSync.modify_and_notify at h
  by_cases hp : st.poisoned
  · simp [hp] at h
  · simp only [hp, if_false, Bool.false_eq_true, Except.ok.injEq,
      Prod.mk.injEq] at h
    obtain ⟨h1, _⟩ := h
    rw [← h1]
    exact ⟨rfl, rfl, rfl⟩

/-- Witness for C7: snapshotting the cell holding 0, then incrementing it,
leaves the snapshot equal to 0 while the cell holds 1. -/
theorem snapshot_detached_witness :
    CondSync.clone_inner (⟨0, false⟩ : Cell Nat) = 0 ∧
    (⟨1, false⟩ : Cell Nat).value = 1 ∧
    CondSync.clone_inner (⟨1, false⟩ : Cell Nat) = 1 :=
  snapshot_detached (fun v => v + 1) Other.One ⟨0, false⟩ ⟨1, false⟩
    [Step.acquire, Step.applyMutator 0 1, Step.notifyOne, Step.release] (by rfl)

/-- C8: for every `N`, when `N` threads each perform one `modify_and_notify`
incrementing a shared counter by 1 starting from `new 0`, their critical
sections are serialized by the exclusive-access region, so any interleaving
equals some serial order (`runMutations`) and ends with the value exactly `N`;
a thread calling `wait_until` with predicate `v == N`, woken at each
intermediate counter value, returns `Condition` and observes exactly `N`. -/
theorem counter_increments_then_wait (N : Nat) :
    runMutations (List.replicate N (fun v => v + 1)) (CondSync.new 0) =
      Except.ok (⟨N, false⟩ : Cell Nat) ∧
    CondSync.wait_until (fun v => v == N) (CondSync.new 0)
        ((List.range' 1 N).map (fun i => (⟨i, false⟩ : Cell Nat))) =
      some (Except.ok (Reason.Condition, N)) := by
  constructor
  · have h := runMutations_replicate N 0
    simpa [CondSync.new] using h
  · unfold CondSync.wait_until
    simp only [CondSync.new, if_false, Bool.false_eq_true]
    exact waitLoop_counts N 0 N (by omega)

/-- C9: the two source versions of the library, `src/lib.rs` (`RootLib`) and
`src/src/lib.rs` (`CondSync`), are behaviourally equivalent: for the same
initial value and the same inputs, `new`, `wait_until`,
`wait_until_or_timeout`, `wait_timeout`, `modify_and_notify` and
`clone_inner` produce the same results and fail in exactly the same poisoned
cases, up to the renaming of the error type (`CondSyncError::Poison` versus
`PoisonedError`) expressed by `exMap`/`outMap`. -/
theorem versions_equivalent {α : Type} (pred : α → Bool) (st : Cell α)
    (wakes : List (Cell α)) (duration t0 : Nat) (twakes : List (TimedWake α))
    (w : TimedWake α) (f : α → α) (other : Other) (v0 : α) :
    RootLib.new v0 = CondSync.new v0 ∧
    (RootLib.wait_until pred st wakes).map exMap =
      CondSync.wait_until pred st wakes ∧
    outMap (RootLib.wait_until_or_timeout pred duration st t0 twakes) =
      CondSync.wait_until_or_timeout pred duration st t0 twakes ∧
    exMap (RootLib.wait_timeout st w) = CondSync.wait_timeout st w ∧
    exMap (RootLib.modify_and_notify f other st) =
      CondSync.modify_and_notify f other st ∧
    RootLib.clone_inner st = CondSync.clone_inner st := by
  refine ⟨rfl, ?_, ?_, ?_, ?_, rfl⟩
  · unfold RootLib.wait_until CondSync.wait_until
    by_cases hp : st.poisoned
    · simp [hp, exMap]
    · simp only [hp, if_false, Bool.false_eq_true]
      exact waitLoop_equiv pred wakes st.value
  · unfold RootLib.wait_until_or_timeout CondSync.wait_until_or_timeout
    by_cases hp : st.poisoned
    · simp [hp, outMap]
    · simp only [hp, if_false, Bool.false_eq_true]
      exact wutLoop_equiv pred (t0 + duration) twakes st.value t0
  · unfold RootLib.wait_timeout CondSync.wait_timeout
    by_cases hp : st.poisoned
    · simp [hp, exMap]
    · by_cases hw : w.poisoned
      · simp [hp, hw, exMap]
      · by_cases hto : w.timedOut <;> simp [hp, hw, hto, exMap]
  · unfold RootLib.modify_and_notify CondSync.modify_and_notify
    by_cases hp : st.poisoned <;> simp [hp, exMap]

/-- C10: the blocking and read-only operations never modify the protected
value: in any run in which the environment (other threads) leaves the value
unchanged across wakes, `wait_until`, `wait_until_or_timeout` and
`wait_timeout` observe exactly the initial value at return, and `clone_inner`
returns it while leaving the cell untouched; only the mutator passed to
`modify_and_notify` changes the stored value. -/
theorem read_ops_preserve_value {α : Type} (pred pred2 : α → Bool)
    (st : Cell α) (wakes : List (Cell α)) (duration t0 : Nat)
    (twakes : List (TimedWake α)) (w : TimedWake α)
    (hw : ∀ c ∈ wakes, c.value = st.value)
    (ht : ∀ c ∈ twakes, c.value = st.value)
    (hs : w.value = st.value) :
    (∀ (r : Reason) (v : α),
      CondSync.wait_until pred st wakes = some (Except.ok (r, v)) →
      v = st.value) ∧
    (∀ (v : α) (t : Nat),
      CondSync.wait_until_or_timeout pred2 duration st t0 twakes =
        TimedOutcome.condition v t → v = st.value) ∧
    (∀ (r : Reason) (v : α),
      CondSync.wait_timeout st w = Except.ok (r, v) → v = st.value) ∧
    CondSync.clone_inner st = st.value := by
  refine ⟨?_, ?_, ?_, rfl⟩
  · intro r v h
    unfold CondSync.wait_until at h
    by_cases hp : st.poisoned
    · simp [hp] at h
    · simp only [hp, if_false, Bool.false_eq_true] at h
      exact waitLoop_const_value pred wakes st.value hw r v h
  · intro v t h
    unfold CondSync.wait_until_or_timeout at h
    by_cases hp : st.poisoned
    · simp [hp] at h
    · simp only [hp, if_false, Bool.false_eq_true] at h
      exact wutLoop_const_value pred2 (t0 + duration) twakes st.value t0 ht v t h
  · intro r v h
    unfold CondSync.wait_timeout at h
    by_cases hp : st.poisoned
    · simp [hp] at h
    · by_cases hwp : w.poisoned
      · simp [hp, hwp] at h
      · by_cases hto : w.timedOut
        · simp only [hp, hwp, hto, if_false, if_true, Bool.false_eq_true,
            Except.ok.injEq, Prod.mk.injEq] at h
          rw [← h.2]
          exact hs
        · simp only [hp, hwp, hto, if_false, Bool.false_eq_true,
            Except.ok.injEq, Prod.mk.injEq] at h
          rw [← h.2]
          exact hs

/-- Witness for C10 at concrete interference-free runs on the cell holding 0. -/
theorem read_ops_preserve_value_witness :
    (0 : Nat) = 0 ∧ (0 : Nat) = 0 ∧ (0 : Nat) = 0 ∧
    CondSync.clone_inner (⟨0, false⟩ : Cell Nat) = 0 := by
  have H := read_ops_preserve_value (fun v => v == 0) (fun v => v == 0)
    (⟨0, false⟩ : Cell Nat) [⟨0, false⟩] 10 0 [] ⟨0, false, false, 3⟩
    (by decide) (by simp) rfl
  exact ⟨H.1 Reason.Condition 0 (by rfl), H.2.1 0 0 (by rfl),
    H.2.2.1 Reason.Notification 0 (by rfl), H.2.2.2⟩
